import Mathlib

/-!
Verification of the yellfront-oauth pending-state cache and HTTP handlers,
shallowly embedded from `src/server.js`.

The server keeps an in-memory `Map` called `pendingStates` from a CSRF state
token (a uuid string) to a record `{created, returnUrl, ip}`.  We model the
map as an association list with JavaScript `Map` semantics (insertion order,
first-occurrence lookup).  Times are milliseconds as `Nat` (`Date.now()`).
External collaborators (the Google SDK's URL builder, the token exchange and
refresh calls, `encodeURIComponent`) are modelled as parameters or, where the
spec pins them down, as definitions modelled from the spec.
-/

/-- The record stored in `pendingStates` by the `/precombopulator/auth`
handler: `{created: Date.now(), returnUrl, ip: req.ip}` (server.js:77-81). -/
structure PendingAuthState where
  created : Nat
  returnUrl : String
  ip : String
deriving DecidableEq, Repr

/-- The `pendingStates` map (server.js:36), as an association list from the
state token to the pending record. -/
abbrev Cache := List (String × PendingAuthState)

/-- `pendingStates.get(t)`: first entry with key `t`, if any. -/
def Cache.get : Cache → String → Option PendingAuthState
  | [], _ => none
  | (k, v) :: rest, t => if k = t then some v else Cache.get rest t

/-- `pendingStates.set(t, v)`: replace the first entry with key `t` in place,
or append a new entry at the end (JavaScript `Map` insertion order). -/
def Cache.set : Cache → String → PendingAuthState → Cache
  | [], t, v => [(t, v)]
  | (k, w) :: rest, t, v =>
    if k = t then (t, v) :: rest else (k, w) :: Cache.set rest t v

/-- `pendingStates.delete(t)`: remove the entry (all entries, which under the
unique-keys invariant is the single entry) with key `t`. -/
def Cache.delete : Cache → String → Cache
  | [], _ => []
  | (k, v) :: rest, t =>
    if k = t then Cache.delete rest t else (k, v) :: Cache.delete rest t

/-- The live tokens: keys of the map. -/
def Cache.keys (m : Cache) : List String := m.map Prod.fst

/-- The expiry threshold: `10 * 60 * 1000` ms, 10 minutes (server.js:43). -/
def expiryMs : Nat := 10 * 60 * 1000

/-- The sweep body (server.js:40-47): for each entry, delete it when
`now - data.created > 10 * 60 * 1000`.  `Date.now()` subtraction on values
where `now < created` is negative in JS and hence not `> expiryMs`; `Nat`
truncated subtraction gives `0`, likewise not `> expiryMs`. -/
def sweep : Cache → Nat → Cache
  | [], _ => []
  | (k, v) :: rest, now =>
    if now - v.created > expiryMs then sweep rest now
    else (k, v) :: sweep rest now

/-- The spec's `consume(token)`: the callback handler's lookup-and-delete
(server.js:111-118).  Looks the token up; on a hit removes the entry and
returns the record, on a miss returns `NotFound` (here `none`) and leaves the
map unchanged. -/
def consume (m : Cache) (t : String) : Option PendingAuthState × Cache :=
  match Cache.get m t with
  | none => (none, m)
  | some r => (some r, Cache.delete m t)

/-- JavaScript `a || b` on an optional string: an absent or empty string is
falsy (`req.query.return_url || process.env.DEFAULT_RETURN_URL || '/'`,
server.js:75). -/
def jsOr : Option String → String → String
  | some s, d => if s = "" then d else s
  | none, d => d

/-- JavaScript truthiness of an optional string query/body parameter:
present and non-empty. -/
def truthy : Option String → Bool
  | some s => if s = "" then false else true
  | none => false

/-! ### Basic lemmas about the cache operations -/

theorem Cache.get_delete_self (m : Cache) (t : String) :
    Cache.get (Cache.delete m t) t = none := by
  induction m with
  | nil => rfl
  | cons e rest ih =>
    obtain ⟨k, v⟩ := e
    by_cases h : k = t
    · simpa [Cache.delete, h] using ih
    · simpa [Cache.delete, Cache.get, h] using ih

theorem Cache.get_delete_ne (m : Cache) (t t' : String) (h : t' ≠ t) :
    Cache.get (Cache.delete m t) t' = Cache.get m t' := by
  induction m with
  | nil => rfl
  | cons e rest ih =>
    obtain ⟨k, v⟩ := e
    by_cases hk : k = t
    · subst hk
      simp [Cache.delete, Cache.get, Ne.symm h, ih]
    · by_cases hk' : k = t'
      · subst hk'
        simp [Cache.delete, Cache.get, h]
      · simp [Cache.delete, Cache.get, hk, hk', ih]

theorem Cache.get_eq_none_iff (m : Cache) (t : String) :
    Cache.get m t = none ↔ t ∉ Cache.keys m := by
  induction m with
  | nil => simp [Cache.get, Cache.keys]
  | cons e rest ih =>
    obtain ⟨k, v⟩ := e
    by_cases h : k = t
    · simp [Cache.get, Cache.keys, h]
    · simp [Cache.get, Cache.keys, h, Ne.symm h, ih]

theorem Cache.set_fresh_append (m : Cache) (t : String) (v : PendingAuthState)
    (h : Cache.get m t = none) : Cache.set m t v = m ++ [(t, v)] := by
  induction m with
  | nil => rfl
  | cons e rest ih =>
    obtain ⟨k, w⟩ := e
    by_cases hk : k = t
    · simp [Cache.get, hk] at h
    · simp [Cache.get, hk] at h
      simp [Cache.set, hk, ih h]

theorem Cache.get_append_right (m : Cache) (t : String) (v : PendingAuthState)
    (h : Cache.get m t = none) :
    Cache.get (m ++ [(t, v)]) t = some v := by
  induction m with
  | nil => simp [Cache.get]
  | cons e rest ih =>
    obtain ⟨k, w⟩ := e
    by_cases hk : k = t
    · simp [Cache.get, hk] at h
    · simp [Cache.get, hk] at h
      simpa [Cache.get, hk] using ih h

theorem Cache.get_set_self (m : Cache) (t : String) (v : PendingAuthState) :
    Cache.get (Cache.set m t v) t = some v := by
  induction m with
  | nil => simp [Cache.set, Cache.get]
  | cons e rest ih =>
    obtain ⟨k, w⟩ := e
    by_cases hk : k = t
    · simp [Cache.set, Cache.get, hk]
    · simp [Cache.set, Cache.get, hk, ih]

theorem Cache.get_set_ne (m : Cache) (t t' : String) (v : PendingAuthState)
    (h : t' ≠ t) : Cache.get (Cache.set m t v) t' = Cache.get m t' := by
  induction m with
  | nil => simp [Cache.set, Cache.get, Ne.symm h]
  | cons e rest ih =>
    obtain ⟨k, w⟩ := e
    by_cases hk : k = t
    · subst hk
      simp [Cache.set, Cache.get, Ne.symm h]
    · simp [Cache.set, Cache.get, hk, ih]

theorem mem_sweep (m : Cache) (now : Nat) (e : String × PendingAuthState) :
    e ∈ sweep m now ↔ e ∈ m ∧ ¬ (now - e.2.created > expiryMs) := by
  induction m with
  | nil => simp [sweep]
  | cons f rest ih =>
    obtain ⟨k, v⟩ := f
    by_cases h : now - v.created > expiryMs
    · simp only [sweep, if_pos h]
      rw [ih]
      constructor
      · rintro ⟨he, hne⟩
        exact ⟨List.mem_cons_of_mem _ he, hne⟩
      · rintro ⟨he, hne⟩
        rcases List.mem_cons.mp he with rfl | he'
        · exact absurd h hne
        · exact ⟨he', hne⟩
    · simp only [sweep, if_neg h]
      constructor
      · intro he
        rcases List.mem_cons.mp he with rfl | he'
        · exact ⟨List.mem_cons_self _ _, h⟩
        · rcases (ih).mp he' with ⟨hm, hne⟩
          exact ⟨List.mem_cons_of_mem _ hm, hne⟩
      · rintro ⟨he, hne⟩
        rcases List.mem_cons.mp he with rfl | he'
        · exact List.mem_cons_self _ _
        · exact List.mem_cons_of_mem _ ((ih).mpr ⟨he', hne⟩)

theorem Cache.get_mem (m : Cache) (t : String) (r : PendingAuthState)
    (h : Cache.get m t = some r) : (t, r) ∈ m := by
  induction m with
  | nil => simp [Cache.get] at h
  | cons e rest ih =>
    obtain ⟨k, v⟩ := e
    by_cases hk : k = t
    · subst hk
      simp [Cache.get] at h
      subst h
      exact List.mem_cons_self _ _
    · simp [Cache.get, hk] at h
      exact List.mem_cons_of_mem _ (ih h)

theorem get_sweep_none (m : Cache) (now : Nat) (t : String)
    (h : ∀ r : PendingAuthState, (t, r) ∈ m → now - r.created > expiryMs) :
    Cache.get (sweep m now) t = none := by
  cases hg : Cache.get (sweep m now) t with
  | none => rfl
  | some r =>
    have hmem : (t, r) ∈ sweep m now := Cache.get_mem _ _ _ hg
    rcases (mem_sweep m now (t, r)).mp hmem with ⟨hm, hne⟩
    exact absurd (h r hm) hne

/-! ### HTTP surface: data types -/

/-- The token bundle the provider returns from the code exchange
(`oauth2Client.getToken(code)`): the handler reads `access_token`,
`refresh_token` (possibly absent) and `expiry_date`. -/
structure Tokens where
  access_token : String
  refresh_token : Option String
  expiry_date : Nat
deriving DecidableEq, Repr

/-- The user info fetched after a successful exchange
(`oauth2.userinfo.get()`): the handler reads `email`, `name`, `picture`. -/
structure UserInfo where
  email : String
  name : String
  picture : String
deriving DecidableEq, Repr

/-- Outcome of the provider-side `getToken` + `userinfo.get` calls inside the
callback's try block: either both succeed, or some call throws and control
reaches the catch block (server.js:161-164). -/
inductive ExchangeOutcome
  | ok (tokens : Tokens) (user : UserInfo)
  | err
deriving DecidableEq, Repr

/-- Credentials returned by the provider's `refreshAccessToken()`. -/
structure Credentials where
  access_token : String
  refresh_token : Option String
  expiry_date : Nat
deriving DecidableEq, Repr

/-- Outcome of the provider-side refresh call (server.js:175-181). -/
inductive RefreshOutcome
  | ok (credentials : Credentials)
  | err
deriving DecidableEq, Repr

/-- Response bodies the modelled handlers produce. -/
inductive Body
  | err (msg : String)
  | callbackSuccess (user : UserInfo) (tokens : Tokens)
  | refreshSuccess (access_token : String) (expiry_date : Nat)
deriving DecidableEq, Repr

/-- An HTTP response: `res.status(n).json(body)` or `res.redirect(url)`
(a 302 redirect). -/
inductive Response
  | json (status : Nat) (body : Body)
  | redirect (url : String)
deriving DecidableEq, Repr

/-- The scopes requested (server.js:57-63). -/
def SCOPES : List String :=
  [ "https://www.googleapis.com/auth/gmail.modify"
  , "https://www.googleapis.com/auth/calendar"
  , "https://www.googleapis.com/auth/contacts.readonly"
  , "https://www.googleapis.com/auth/userinfo.email"
  , "https://www.googleapis.com/auth/userinfo.profile" ]

/-- Modelled from the spec: `buildAuthorizationUrl(clientId, redirectUri,
scopes, state, accessType=offline, prompt=consent) -> URL`.  The URL builder
lives in the external provider SDK (`oauth2Client.generateAuthUrl`, not part
of this repository's sources); per the spec it embeds the CSRF token as the
`state` query parameter of the authorization URL. -/
def buildAuthorizationUrl (clientId redirectUri : String)
    (scopes : List String) (token : String) : String :=
  "https://accounts.google.com/o/oauth2/v2/auth?client_id=" ++ clientId
    ++ "&redirect_uri=" ++ redirectUri
    ++ "&scope=" ++ String.intercalate " " scopes
    ++ "&access_type=offline&prompt=consent&state=" ++ token

/-! ### The handlers -/

/-- GET `/precombopulator/auth` (server.js:73-92).  `token` stands for the
freshly generated `uuidv4()`, `now` for `Date.now()`, `return_url` for the
optional `return_url` query parameter, `dflt` for the optional
`DEFAULT_RETURN_URL` environment variable, `ip` for `req.ip`.  The handler
stores the pending record and responds with a 302 redirect to the provider's
authorization URL. -/
def beginHandler (m : Cache) (token : String) (now : Nat)
    (return_url dflt : Option String) (ip clientId redirectUri : String) :
    Response × Cache :=
  let returnUrl := jsOr return_url (jsOr dflt "/")
  let m' := Cache.set m token { created := now, returnUrl := returnUrl, ip := ip }
  (Response.redirect (buildAuthorizationUrl clientId redirectUri SCOPES token), m')

/-- The query parameters of a callback request to
`/precombopulator/yellfront`: `const { code, state, error } = req.query`
plus the `format` parameter read later. -/
structure CallbackQuery where
  code : Option String
  state : Option String
  error : Option String
  format : Option String
deriving DecidableEq, Repr

/-- GET `/precombopulator/yellfront` (server.js:94-165).  `ex` is the outcome
of the provider calls in the try block, `encodeURI` models the JavaScript
`encodeURIComponent` builtin.  Returns the response and the cache left
behind. -/
def yellfrontHandler (m : Cache) (q : CallbackQuery) (ex : ExchangeOutcome)
    (encodeURI : String → String) : Response × Cache :=
  if truthy q.error then
    (Response.json 400 (Body.err ("Google OAuth error: " ++ q.error.getD "")), m)
  else if !truthy q.code || !truthy q.state then
    (Response.json 400 (Body.err "Missing required parameters"), m)
  else
    let st := q.state.getD ""
    match Cache.get m st with
    | none =>
      (Response.json 400 (Body.err "Invalid or expired state. Please try again."), m)
    | some pending =>
      let m' := Cache.delete m st
      match ex with
      | ExchangeOutcome.err =>
        (Response.json 500 (Body.err "Failed to exchange authorization code"), m')
      | ExchangeOutcome.ok tokens user =>
        if q.format = some "json" then
          (Response.json 200 (Body.callbackSuccess user tokens), m')
        else
          let returnUrl := if pending.returnUrl = "" then "/" else pending.returnUrl
          let sep := if returnUrl.toList.contains '?' then "&" else "?"
          (Response.redirect
            (returnUrl ++ sep ++ "auth=success&email=" ++ encodeURI user.email), m')

/-- POST `/precombopulator/refresh` (server.js:168-189).  `refresh_token` is
the optional body field, `provider` the outcome of the provider's refresh
call. -/
def refreshHandler (refresh_token : Option String) (provider : RefreshOutcome) :
    Response :=
  if !truthy refresh_token then
    Response.json 400 (Body.err "Missing refresh_token")
  else
    match provider with
    | RefreshOutcome.ok c =>
      Response.json 200 (Body.refreshSuccess c.access_token c.expiry_date)
    | RefreshOutcome.err =>
      Response.json 401 (Body.err "Failed to refresh token")

/-! ### Reachable cache states

The token generator is `uuidv4()`; following the spec's uniqueness caveat
("collision probability negligible given generation method") freshness is
modelled as a hypothesis: a `begin` step only fires with a token not
currently live. -/

/-- Cache states reachable from the empty initial map by the three
operations, with `begin` supplying a fresh token. -/
inductive Reachable : Cache → Prop
  | init : Reachable []
  | step_begin (m : Cache) (t : String) (now : Nat) (ru ip : String) :
      Reachable m → Cache.get m t = none →
      Reachable (Cache.set m t ⟨now, ru, ip⟩)
  | step_consume (m : Cache) (t : String) :
      Reachable m → Reachable (consume m t).2
  | step_sweep (m : Cache) (now : Nat) :
      Reachable m → Reachable (sweep m now)

theorem Cache.keys_delete_sublist (m : Cache) (t : String) :
    (Cache.delete m t).keys.Sublist m.keys := by
  induction m with
  | nil => simp [Cache.delete, Cache.keys]
  | cons e rest ih =>
    obtain ⟨k, v⟩ := e
    by_cases h : k = t
    · simp only [Cache.delete, if_pos h, Cache.keys, List.map_cons]
      exact ih.cons _
    · simp only [Cache.delete, if_neg h, Cache.keys, List.map_cons]
      exact ih.cons₂ _

theorem keys_sweep_sublist (m : Cache) (now : Nat) :
    (sweep m now).keys.Sublist m.keys := by
  induction m with
  | nil => simp [sweep, Cache.keys]
  | cons e rest ih =>
    obtain ⟨k, v⟩ := e
    by_cases h : now - v.created > expiryMs
    · simp only [sweep, if_pos h, Cache.keys, List.map_cons]
      exact ih.cons _
    · simp only [sweep, if_neg h, Cache.keys, List.map_cons]
      exact ih.cons₂ _

theorem reachable_nodup_keys (m : Cache) (h : Reachable m) : m.keys.Nodup := by
  induction h with
  | init => simp [Cache.keys]
  | step_begin m t now ru ip _ hfresh ih =>
    rw [Cache.set_fresh_append m t _ hfresh]
    have ht : t ∉ m.keys := (Cache.get_eq_none_iff m t).mp hfresh
    have hkeys : (m ++ [(t, (⟨now, ru, ip⟩ : PendingAuthState))]).keys
        = m.keys ++ [t] := by
      simp [Cache.keys]
    rw [hkeys]
    exact List.Nodup.append ih (List.nodup_singleton t)
      ((List.disjoint_singleton).mpr ht)
  | step_consume m t _ ih =>
    unfold consume
    cases Cache.get m t with
    | none => exact ih
    | some r => exact (Cache.keys_delete_sublist m t).nodup ih
  | step_sweep m now _ ih => exact (keys_sweep_sublist m now).nodup ih

/-! ### Claim theorems -/

theorem consume_not_found (m : Cache) (t : String)
    (h : Cache.get m t = none) : consume m t = (none, m) := by
  unfold consume
  rw [h]

/-- Claim C1: a token issued by `begin` (inserted fresh into `pendingStates`) is
returned with its original record (`createdAt`, `returnUrl`, `originAddress`)
by a single subsequent `consume`; the consume removes the record, and any
further `consume` of the same token returns `NotFound` and leaves the cache
unchanged.  (No freshness hypothesis is needed: `set` stores the record
whether or not the uuid collided.) -/
theorem consume_after_begin (m : Cache) (t : String) (now : Nat) (ru ip : String) :
    (consume (Cache.set m t ⟨now, ru, ip⟩) t).1 = some ⟨now, ru, ip⟩ ∧
    Cache.get (consume (Cache.set m t ⟨now, ru, ip⟩) t).2 t = none ∧
    consume (consume (Cache.set m t ⟨now, ru, ip⟩) t).2 t
      = (none, (consume (Cache.set m t ⟨now, ru, ip⟩) t).2) := by
  have hget : Cache.get (Cache.set m t ⟨now, ru, ip⟩) t = some ⟨now, ru, ip⟩ :=
    Cache.get_set_self m t _
  have h1 : consume (Cache.set m t ⟨now, ru, ip⟩) t
      = (some ⟨now, ru, ip⟩, Cache.delete (Cache.set m t ⟨now, ru, ip⟩) t) := by
    unfold consume
    rw [hget]
  have h2 : Cache.get (consume (Cache.set m t ⟨now, ru, ip⟩) t).2 t = none := by
    rw [h1]
    exact Cache.get_delete_self _ t
  exact ⟨by rw [h1], h2, consume_not_found _ t h2⟩

/-- Claim C2: `sweep now` keeps exactly the entries whose age does not exceed the
10-minute threshold (so it removes every expired record and no live one);
and for a token whose record is expired at sweep time (in a cache with
unique keys), `consume` after the sweep returns `NotFound`. -/
theorem sweep_expiry_spec (m : Cache) (now : Nat) (t : String)
    (r : PendingAuthState) :
    ((t, r) ∈ sweep m now ↔ (t, r) ∈ m ∧ now - r.created ≤ expiryMs) ∧
    ((∀ r' : PendingAuthState, (t, r') ∈ m → now - r'.created > expiryMs) →
      (consume (sweep m now) t).1 = none) := by
  constructor
  · rw [mem_sweep]
    simp [Nat.not_lt]
  · intro hall
    unfold consume
    rw [get_sweep_none m now t hall]

/-- Witness for C2 at a concrete input: a record created at time 0, swept at
11 minutes, is no longer consumable. -/
theorem sweep_expiry_spec_witness :
    (consume (sweep [("a", ⟨0, "/", "ip"⟩)] (11 * 60 * 1000)) "a").1 = none :=
  (sweep_expiry_spec [("a", ⟨0, "/", "ip"⟩)] (11 * 60 * 1000) "a"
    ⟨0, "/", "ip"⟩).2 (by
      intro r' hr
      simp only [List.mem_singleton, Prod.mk.injEq] at hr
      rw [hr.2]
      decide)

/-- Claim C5: the sweep is idempotent: sweeping an already-swept cache at the same
time changes nothing. -/
theorem sweep_idempotent (m : Cache) (now : Nat) :
    sweep (sweep m now) now = sweep m now := by
  induction m with
  | nil => rfl
  | cons e rest ih =>
    obtain ⟨k, v⟩ := e
    by_cases h : now - v.created > expiryMs
    · simp [sweep, h, ih]
    · simp [sweep, h, ih]

/-- Claim C3: on a callback with a truthy `code` and a `state` present in the
cache, when the provider exchange fails the handler responds
`500 {error: "Failed to exchange authorization code"}`, and the state was
consumed before the exchange: the cache left behind is the original with the
state deleted, and a replayed `consume` of that state returns `NotFound`. -/
theorem yellfront_exchange_failure (m : Cache) (q : CallbackQuery)
    (encodeURI : String → String) (r : PendingAuthState)
    (herr : truthy q.error = false) (hcode : truthy q.code = true)
    (hstate : truthy q.state = true)
    (hget : Cache.get m (q.state.getD "") = some r) :
    (yellfrontHandler m q ExchangeOutcome.err encodeURI).1
      = Response.json 500 (Body.err "Failed to exchange authorization code") ∧
    (yellfrontHandler m q ExchangeOutcome.err encodeURI).2
      = Cache.delete m (q.state.getD "") ∧
    (consume (yellfrontHandler m q ExchangeOutcome.err encodeURI).2
      (q.state.getD "")).1 = none := by
  have hrun : yellfrontHandler m q ExchangeOutcome.err encodeURI
      = (Response.json 500 (Body.err "Failed to exchange authorization code"),
         Cache.delete m (q.state.getD "")) := by
    unfold yellfrontHandler
    rw [herr, hcode, hstate]
    simp only [Bool.not_true, Bool.or_self, Bool.false_eq_true, if_false,
      if_true, hget]
  refine ⟨by rw [hrun], by rw [hrun], ?_⟩
  rw [hrun]
  unfold consume
  rw [Cache.get_delete_self]

/-- Witness for C3 at a concrete input. -/
theorem yellfront_exchange_failure_witness :
    (yellfrontHandler [("s", ⟨0, "/", "ip"⟩)]
        ⟨some "c", some "s", none, none⟩ ExchangeOutcome.err (fun s => s)).1
      = Response.json 500 (Body.err "Failed to exchange authorization code") ∧
    (yellfrontHandler [("s", ⟨0, "/", "ip"⟩)]
        ⟨some "c", some "s", none, none⟩ ExchangeOutcome.err (fun s => s)).2
      = Cache.delete [("s", ⟨0, "/", "ip"⟩)] "s" ∧
    (consume (yellfrontHandler [("s", ⟨0, "/", "ip"⟩)]
        ⟨some "c", some "s", none, none⟩ ExchangeOutcome.err (fun s => s)).2
      "s").1 = none :=
  yellfront_exchange_failure [("s", ⟨0, "/", "ip"⟩)]
    ⟨some "c", some "s", none, none⟩ (fun s => s) ⟨0, "/", "ip"⟩
    rfl rfl rfl (by decide)

/-- Claim C4: a token absent from the cache — never issued, already consumed, or
swept — yields one and the same observable outcome: `consume` returns
`NotFound` leaving the cache untouched, and the callback handler answers
`400 {error: "Invalid or expired state. Please try again."}`; two runs that
differ only in the cache (and in the would-be exchange outcome) produce
equal responses, so the caller cannot tell the three causes apart. -/
theorem yellfront_absent_state_uniform (m₁ m₂ : Cache) (q : CallbackQuery)
    (ex₁ ex₂ : ExchangeOutcome) (enc₁ enc₂ : String → String)
    (herr : truthy q.error = false) (hcode : truthy q.code = true)
    (hstate : truthy q.state = true)
    (h₁ : Cache.get m₁ (q.state.getD "") = none)
    (h₂ : Cache.get m₂ (q.state.getD "") = none) :
    (yellfrontHandler m₁ q ex₁ enc₁).1 = (yellfrontHandler m₂ q ex₂ enc₂).1 ∧
    (yellfrontHandler m₁ q ex₁ enc₁).1
      = Response.json 400 (Body.err "Invalid or expired state. Please try again.") ∧
    consume m₁ (q.state.getD "") = (none, m₁) := by
  have run : ∀ (m : Cache) (ex : ExchangeOutcome) (enc : String → String),
      Cache.get m (q.state.getD "") = none →
      yellfrontHandler m q ex enc
        = (Response.json 400
            (Body.err "Invalid or expired state. Please try again."), m) := by
    intro m ex enc h
    unfold yellfrontHandler
    rw [herr, hcode, hstate]
    simp only [Bool.not_true, Bool.or_self, Bool.false_eq_true, if_false,
      if_true, h]
  refine ⟨?_, by rw [run m₁ ex₁ enc₁ h₁], consume_not_found m₁ _ h₁⟩
  rw [run m₁ ex₁ enc₁ h₁, run m₂ ex₂ enc₂ h₂]

/-- Witness for C4 at concrete inputs: an empty cache and a cache holding an
unrelated token give byte-identical responses for the probed token. -/
theorem yellfront_absent_state_uniform_witness :
    (yellfrontHandler [] ⟨some "c", some "s", none, none⟩
        ExchangeOutcome.err (fun s => s)).1
      = (yellfrontHandler [("other", ⟨0, "/", "ip"⟩)]
          ⟨some "c", some "s", none, none⟩
          (ExchangeOutcome.ok ⟨"at", none, 9⟩ ⟨"e", "n", "p"⟩) (fun s => s)).1 ∧
    (yellfrontHandler [] ⟨some "c", some "s", none, none⟩
        ExchangeOutcome.err (fun s => s)).1
      = Response.json 400 (Body.err "Invalid or expired state. Please try again.") ∧
    consume [] "s" = (none, []) :=
  yellfront_absent_state_uniform [] [("other", ⟨0, "/", "ip"⟩)]
    ⟨some "c", some "s", none, none⟩ ExchangeOutcome.err
    (ExchangeOutcome.ok ⟨"at", none, 9⟩ ⟨"e", "n", "p"⟩) (fun s => s) (fun s => s)
    rfl rfl rfl (by decide) (by decide)

/-- Claim C8: a callback with no provider `error` parameter and a missing `code`
or missing `state` is answered `400 {error: "Missing required parameters"}`,
and the cache is left exactly as it was: no state token is consumed. -/
theorem yellfront_missing_params (m : Cache) (q : CallbackQuery)
    (ex : ExchangeOutcome) (encodeURI : String → String)
    (herr : q.error = none) (hmiss : q.code = none ∨ q.state = none) :
    (yellfrontHandler m q ex encodeURI).1
      = Response.json 400 (Body.err "Missing required parameters") ∧
    (yellfrontHandler m q ex encodeURI).2 = m := by
  have hcond : (!truthy q.code || !truthy q.state) = true := by
    rcases hmiss with h | h <;> rw [h] <;> simp [truthy]
  have hrun : yellfrontHandler m q ex encodeURI
      = (Response.json 400 (Body.err "Missing required parameters"), m) := by
    unfold yellfrontHandler
    rw [herr, hcond]
    simp [truthy]
  exact ⟨by rw [hrun], by rw [hrun]⟩

/-- Witness for C8 at a concrete input. -/
theorem yellfront_missing_params_witness :
    (yellfrontHandler [("s", ⟨0, "/", "ip"⟩)] ⟨none, some "s", none, none⟩
        ExchangeOutcome.err (fun s => s)).1
      = Response.json 400 (Body.err "Missing required parameters") ∧
    (yellfrontHandler [("s", ⟨0, "/", "ip"⟩)] ⟨none, some "s", none, none⟩
        ExchangeOutcome.err (fun s => s)).2 = [("s", ⟨0, "/", "ip"⟩)] :=
  yellfront_missing_params [("s", ⟨0, "/", "ip"⟩)]
    ⟨none, some "s", none, none⟩ ExchangeOutcome.err (fun s => s)
    rfl (Or.inl rfl)

/-- Claim C9: the `/refresh` endpoint answers `400 {error: "Missing refresh_token"}` when the
body lacks `refresh_token`, `401 {error: "Failed to refresh token"}` when the
provider rejects the refresh, and on success `200` with a body holding
exactly the `access_token` and `expiry_date` of the refreshed credentials. -/
theorem refresh_handler_spec (rt : Option String) (provider : RefreshOutcome)
    (c : Credentials) :
    refreshHandler none provider
      = Response.json 400 (Body.err "Missing refresh_token") ∧
    (truthy rt = true →
      refreshHandler rt RefreshOutcome.err
        = Response.json 401 (Body.err "Failed to refresh token")) ∧
    (truthy rt = true →
      refreshHandler rt (RefreshOutcome.ok c)
        = Response.json 200 (Body.refreshSuccess c.access_token c.expiry_date)) := by
  refine ⟨rfl, ?_, ?_⟩ <;> intro h <;> unfold refreshHandler <;> rw [h] <;> rfl

/-- Witness for C9 at concrete inputs. -/
theorem refresh_handler_spec_witness :
    refreshHandler (some "rt") RefreshOutcome.err
      = Response.json 401 (Body.err "Failed to refresh token") ∧
    refreshHandler (some "rt") (RefreshOutcome.ok ⟨"at", none, 99⟩)
      = Response.json 200 (Body.refreshSuccess "at" 99) :=
  ⟨(refresh_handler_spec (some "rt") RefreshOutcome.err ⟨"at", none, 99⟩).2.1 rfl,
   (refresh_handler_spec (some "rt") (RefreshOutcome.ok ⟨"at", none, 99⟩)
     ⟨"at", none, 99⟩).2.2 rfl⟩

/-- Claim C6: the `/precombopulator/auth` handler always succeeds: for every input
it responds with a 302 redirect to the provider authorization URL embedding
the generated token as the trailing `state` parameter, and it stores a
record keyed by that token with `created` set to the current time, the
supplied `return_url` when one was given (JS-truthy), or the configured
default (itself falling back to `"/"`) when none was supplied, and the
origin address. -/
theorem begin_handler_spec (m : Cache) (token : String) (now : Nat)
    (return_url dflt : Option String) (ip clientId redirectUri : String) :
    (beginHandler m token now return_url dflt ip clientId redirectUri).1
      = Response.redirect (buildAuthorizationUrl clientId redirectUri SCOPES token) ∧
    (∃ pre : String, buildAuthorizationUrl clientId redirectUri SCOPES token
      = pre ++ "&state=" ++ token) ∧
    Cache.get (beginHandler m token now return_url dflt ip clientId redirectUri).2
        token
      = some ⟨now, jsOr return_url (jsOr dflt "/"), ip⟩ ∧
    (∀ r : String, return_url = some r → r ≠ "" →
      jsOr return_url (jsOr dflt "/") = r) ∧
    (return_url = none → jsOr return_url (jsOr dflt "/") = jsOr dflt "/") := by
  refine ⟨rfl,
    ⟨"https://accounts.google.com/o/oauth2/v2/auth?client_id=" ++ clientId
      ++ "&redirect_uri=" ++ redirectUri ++ "&scope="
      ++ String.intercalate " " SCOPES
      ++ "&access_type=offline&prompt=consent", ?_⟩, ?_, ?_, ?_⟩
  · unfold buildAuthorizationUrl
    simp only [String.append_assoc]
    rfl
  · exact Cache.get_set_self m token _
  · intro r hr hne
    rw [hr]
    simp [jsOr, hne]
  · intro hr
    rw [hr]
    rfl

/-- Witness for C6 at a concrete input: a supplied non-empty `return_url`
is the one stored. -/
theorem begin_handler_spec_witness :
    Cache.get (beginHandler [] "tok" 7 (some "/dash") none "1.2.3.4"
        "cid" "ruri").2 "tok"
      = some ⟨7, jsOr (some "/dash") (jsOr none "/"), "1.2.3.4"⟩ ∧
    jsOr (some "/dash") (jsOr none "/") = "/dash" :=
  ⟨(begin_handler_spec [] "tok" 7 (some "/dash") none "1.2.3.4"
      "cid" "ruri").2.2.1,
   (begin_handler_spec [] "tok" 7 (some "/dash") none "1.2.3.4"
      "cid" "ruri").2.2.2.1 "/dash" rfl (by decide)⟩

/-- Claim C7: at every reachable cache state the live tokens are pairwise
distinct, and a `begin` with a fresh token (the model of `uuidv4`
generation) never overwrites a live record: the insertion is an append, the
key set stays duplicate-free, and every other live record is unchanged. -/
theorem begin_token_uniqueness (m : Cache) (h : Reachable m) (t : String)
    (now : Nat) (ru ip : String) (hfresh : Cache.get m t = none) :
    m.keys.Nodup ∧
    Cache.set m t ⟨now, ru, ip⟩ = m ++ [(t, ⟨now, ru, ip⟩)] ∧
    (Cache.set m t ⟨now, ru, ip⟩).keys.Nodup ∧
    ∀ t' : String, t' ≠ t →
      Cache.get (Cache.set m t ⟨now, ru, ip⟩) t' = Cache.get m t' := by
  refine ⟨reachable_nodup_keys m h, Cache.set_fresh_append m t _ hfresh,
    reachable_nodup_keys _ (Reachable.step_begin m t now ru ip h hfresh),
    fun t' ht' => Cache.get_set_ne m t t' _ ht'⟩

/-- Witness for C7 at a concrete input: one begin step from the empty
cache, then a fresh begin of token `"b"` keeps the record of `"a"`. -/
theorem begin_token_uniqueness_witness :
    (Cache.keys [("a", (⟨0, "/", "ip"⟩ : PendingAuthState))]).Nodup ∧
    Cache.set [("a", ⟨0, "/", "ip"⟩)] "b" ⟨1, "/", "ip"⟩
      = [("a", ⟨0, "/", "ip"⟩)] ++ [("b", ⟨1, "/", "ip"⟩)] ∧
    Cache.get (Cache.set [("a", ⟨0, "/", "ip"⟩)] "b" ⟨1, "/", "ip"⟩) "a"
      = Cache.get [("a", ⟨0, "/", "ip"⟩)] "a" :=
  ⟨(begin_token_uniqueness [("a", ⟨0, "/", "ip"⟩)]
      (Reachable.step_begin [] "a" 0 "/" "ip" Reachable.init rfl)
      "b" 1 "/" "ip" (by decide)).1,
   (begin_token_uniqueness [("a", ⟨0, "/", "ip"⟩)]
      (Reachable.step_begin [] "a" 0 "/" "ip" Reachable.init rfl)
      "b" 1 "/" "ip" (by decide)).2.1,
   (begin_token_uniqueness [("a", ⟨0, "/", "ip"⟩)]
      (Reachable.step_begin [] "a" 0 "/" "ip" Reachable.init rfl)
      "b" 1 "/" "ip" (by decide)).2.2.2 "a" (by decide)⟩

/-- Claim C10 counterexample: a callback request whose query contains an `error`
parameter with the empty-string value (`?error=&code=c&state=s`) is not
answered on the provider-error branch — the JavaScript truthiness test
`if (error)` treats the empty string as absent — so the handler proceeds to
the state lookup, consumes the live token `"s"`, and answers 500 (here with
a failing exchange), leaving the cache changed, contrary to the claim. -/
theorem yellfront_error_param_counterexample :
    (some "" : Option String).isSome = true ∧
    (yellfrontHandler [("s", ⟨0, "/", "1.2.3.4"⟩)]
        ⟨some "c", some "s", some "", none⟩ ExchangeOutcome.err (fun s => s)).2
      ≠ [("s", ⟨0, "/", "1.2.3.4"⟩)] ∧
    Cache.get (yellfrontHandler [("s", ⟨0, "/", "1.2.3.4"⟩)]
        ⟨some "c", some "s", some "", none⟩ ExchangeOutcome.err (fun s => s)).2
        "s" = none ∧
    (yellfrontHandler [("s", ⟨0, "/", "1.2.3.4"⟩)]
        ⟨some "c", some "s", some "", none⟩ ExchangeOutcome.err (fun s => s)).1
      = Response.json 500 (Body.err "Failed to exchange authorization code") := by
  decide

/-- Claim C10 as amended: for every callback request whose query contains a
JS-truthy (present and non-empty) `error` parameter, the handler answers
`400 {error: "Google OAuth error: <error>"}` before performing the state
lookup, so the cache is left unchanged: in particular every live state
token keeps its record and is not consumed. -/
theorem yellfront_provider_error_frame (m : Cache) (q : CallbackQuery)
    (ex : ExchangeOutcome) (encodeURI : String → String)
    (herr : truthy q.error = true) :
    (yellfrontHandler m q ex encodeURI).1
      = Response.json 400 (Body.err ("Google OAuth error: " ++ q.error.getD "")) ∧
    (yellfrontHandler m q ex encodeURI).2 = m ∧
    ∀ (t : String) (r : PendingAuthState), Cache.get m t = some r →
      Cache.get (yellfrontHandler m q ex encodeURI).2 t = some r := by
  have hrun : yellfrontHandler m q ex encodeURI
      = (Response.json 400
          (Body.err ("Google OAuth error: " ++ q.error.getD "")), m) := by
    unfold yellfrontHandler
    rw [herr]
    rfl
  exact ⟨by rw [hrun], by rw [hrun], fun t r h => by rw [hrun]; exact h⟩

/-- Witness for the amended C10 at a concrete input: the live token `"s"`
keeps its record. -/
theorem yellfront_provider_error_frame_witness :
    (yellfrontHandler [("s", ⟨0, "/", "ip"⟩)]
        ⟨some "c", some "s", some "access_denied", none⟩
        ExchangeOutcome.err (fun s => s)).1
      = Response.json 400 (Body.err ("Google OAuth error: "
          ++ (some "access_denied" : Option String).getD "")) ∧
    (yellfrontHandler [("s", ⟨0, "/", "ip"⟩)]
        ⟨some "c", some "s", some "access_denied", none⟩
        ExchangeOutcome.err (fun s => s)).2 = [("s", ⟨0, "/", "ip"⟩)] ∧
    Cache.get (yellfrontHandler [("s", ⟨0, "/", "ip"⟩)]
        ⟨some "c", some "s", some "access_denied", none⟩
        ExchangeOutcome.err (fun s => s)).2 "s" = some ⟨0, "/", "ip"⟩ :=
  ⟨(yellfront_provider_error_frame [("s", ⟨0, "/", "ip"⟩)]
      ⟨some "c", some "s", some "access_denied", none⟩
      ExchangeOutcome.err (fun s => s) rfl).1,
   (yellfront_provider_error_frame [("s", ⟨0, "/", "ip"⟩)]
      ⟨some "c", some "s", some "access_denied", none⟩
      ExchangeOutcome.err (fun s => s) rfl).2.1,
   (yellfront_provider_error_frame [("s", ⟨0, "/", "ip"⟩)]
      ⟨some "c", some "s", some "access_denied", none⟩
      ExchangeOutcome.err (fun s => s) rfl).2.2 "s" ⟨0, "/", "ip"⟩ (by decide)⟩
